import Mathlib

/-!
Verification of the Validator filter (pkg/filters/validator/validator.go).

The filter composes up to five optional authentication schemes (headers, JWT,
signature, OAuth2, basic auth). Each scheme validator is embedded by its
observable request-validation behavior: a function from the request to an
optional error message (none means the scheme accepts the request), matching
the Go contract Validate(request) -> error | nil. The handle function is
instrumented to also return the list of schemes whose Validate was invoked,
in invocation order, so ordering and short-circuit statements can be made.
-/

namespace EGValidator

/-- The pieces of the HTTP context that Validator.handle mutates: the response
status code (none while unset) and the list of tags added to the context. -/
structure HTTPContext where
  statusCode : Option Nat := none
  tags : List String := []
deriving DecidableEq

/-- Response().SetStatusCode(code). -/
def HTTPContext.setStatusCode (ctx : HTTPContext) (code : Nat) : HTTPContext :=
  { ctx with statusCode := some code }

/-- AddTag(tag): appends one tag to the context. -/
def HTTPContext.addTag (ctx : HTTPContext) (tag : String) : HTTPContext :=
  { ctx with tags := ctx.tags ++ [tag] }

/-- The single result kind the filter registers: resultInvalid = "invalid". -/
def resultInvalid : String := "invalid"

/-- Modelled from the spec: filters.BaseSpec (not under src/) is the filter
metadata embedded inline in Spec; Validator.Name in validator.go exposes its
instance name, so it carries at least a name and its Go zero value has the
empty name. -/
structure BaseSpec where
  name : String := ""
deriving DecidableEq

/-- Modelled from the spec: a per-scheme configuration section
(httpheader.ValidatorSpec, JWTValidatorSpec, signer.Spec, OAuth2ValidatorSpec,
BasicAuthValidatorSpec are not under src/); each is abstracted by the
request-validation behavior the constructed scheme validator has:
Validate(request) -> ValidationError | nil. -/
structure SchemeSpec (Req : Type) where
  validate : Req → Option String

/-- Spec of the Validator filter (validator.go): the embedded BaseSpec plus
five optional scheme sections, each nil (none) when the scheme is disabled. -/
structure Spec (Req : Type) where
  baseSpec : BaseSpec := {}
  headers : Option (SchemeSpec Req) := none
  jwt : Option (SchemeSpec Req) := none
  signature : Option (SchemeSpec Req) := none
  oauth2 : Option (SchemeSpec Req) := none
  basicAuth : Option (SchemeSpec Req) := none

/-- Spec.Validate (validator.go): returns the error "none of the validations
are defined" precisely when the spec equals the Go zero value Spec, and nil
(none) otherwise. Go struct equality compares every field, the embedded
BaseSpec included, and compares the scheme sections as pointers against nil. -/
def Spec.Validate {Req : Type} (s : Spec Req) : Option String :=
  if s.baseSpec.name == "" && s.headers.isNone && s.jwt.isNone && s.signature.isNone
      && s.oauth2.isNone && s.basicAuth.isNone then
    some "none of the validations are defined"
  else
    none

/-- BasicAuthValidator (basicauth.go, not under src/). Modelled from the spec:
besides its Validate behavior it owns a releasable resource, a background
credential-store watcher, modelled as a running flag. -/
structure BasicAuthValidator (Req : Type) where
  validate : Req → Option String
  running : Bool

/-- Modelled from the spec: NewBasicAuthValidator constructs the validator
from its section and starts its background watcher. -/
def NewBasicAuthValidator {Req : Type} (s : SchemeSpec Req) : BasicAuthValidator Req :=
  { validate := s.validate, running := true }

/-- Modelled from the spec: BasicAuthValidator.Close stops the background
credential-store watcher. -/
def BasicAuthValidator.Close {Req : Type} (b : BasicAuthValidator Req) :
    BasicAuthValidator Req :=
  { b with running := false }

/-- Modelled from the spec: httpheader.NewValidator, abstracted by the
Validate behavior of the constructed validator. -/
def newHeadersValidator {Req : Type} (s : SchemeSpec Req) : Req → Option String :=
  s.validate

/-- Modelled from the spec: NewJWTValidator, abstracted by the Validate
behavior of the constructed validator. -/
def NewJWTValidator {Req : Type} (s : SchemeSpec Req) : Req → Option String :=
  s.validate

/-- Modelled from the spec: signer.CreateFromSpec, abstracted by the Verify
behavior of the constructed signer. -/
def signerCreateFromSpec {Req : Type} (s : SchemeSpec Req) : Req → Option String :=
  s.validate

/-- Modelled from the spec: NewOAuth2Validator, abstracted by the Validate
behavior of the constructed validator. -/
def NewOAuth2Validator {Req : Type} (s : SchemeSpec Req) : Req → Option String :=
  s.validate

/-- Validator (validator.go): the filter instance, holding its spec and the
constructed scheme validators; a nil Go field is none. -/
structure Validator (Req : Type) where
  spec : Spec Req := {}
  headers : Option (Req → Option String) := none
  jwt : Option (Req → Option String) := none
  signer : Option (Req → Option String) := none
  oauth2 : Option (Req → Option String) := none
  basicAuth : Option (BasicAuthValidator Req) := none

/-- Validator.reload (validator.go): for each non-nil scheme section of the
spec, constructs that scheme validator; an absent section leaves its field
untouched. -/
def Validator.reload {Req : Type} (v : Validator Req) : Validator Req :=
  let v1 := match v.spec.headers with
    | some s => { v with headers := some (newHeadersValidator s) }
    | none => v
  let v2 := match v1.spec.jwt with
    | some s => { v1 with jwt := some (NewJWTValidator s) }
    | none => v1
  let v3 := match v2.spec.signature with
    | some s => { v2 with signer := some (signerCreateFromSpec s) }
    | none => v2
  let v4 := match v3.spec.oauth2 with
    | some s => { v3 with oauth2 := some (NewOAuth2Validator s) }
    | none => v3
  match v4.spec.basicAuth with
    | some s => { v4 with basicAuth := some (NewBasicAuthValidator s) }
    | none => v4

/-- Validator.Init (validator.go): stores the spec and reloads; it does not
call Spec.Validate. -/
def Validator.Init {Req : Type} (v : Validator Req) (spec : Spec Req) : Validator Req :=
  Validator.reload { v with spec := spec }

/-- CreateInstance (the kind registration in validator.go): a zero Validator,
all fields nil. -/
def Validator.empty (Req : Type) : Validator Req := {}

/-- Validator.Close (validator.go): closes the basicAuth validator when
present; no other field is touched. -/
def Validator.Close {Req : Type} (v : Validator Req) : Validator Req :=
  match v.basicAuth with
  | some b => { v with basicAuth := some b.Close }
  | none => v

/-- The observable lifecycle actions of Close and Init, for ordering
statements about Inherit. -/
inductive LifecycleEvent where
  | releaseBasicAuth
  | constructGeneration
deriving DecidableEq

/-- The release events Validator.Close emits, in order: one for the basicAuth
watcher when that validator is present, none otherwise. -/
def Validator.closeEvents {Req : Type} (v : Validator Req) : List LifecycleEvent :=
  match v.basicAuth with
  | some _ => [LifecycleEvent.releaseBasicAuth]
  | none => []

/-- The construction event of Validator.Init: reload constructs the new
generation of scheme validators. -/
def initEvents : List LifecycleEvent := [LifecycleEvent.constructGeneration]

/-- Validator.Inherit (validator.go) runs previousGeneration.Close() and then
v.Init(spec). Returns the initialized validator, the closed previous
generation, and the lifecycle events in program order. -/
def Validator.Inherit {Req : Type} (v : Validator Req) (spec : Spec Req)
    (prev : Validator Req) : Validator Req × Validator Req × List LifecycleEvent :=
  (Validator.Init v spec, prev.Close, prev.closeEvents ++ initEvents)

/-- The five validation schemes. -/
inductive Scheme where
  | headers
  | jwt
  | signature
  | oauth2
  | basicAuth
deriving DecidableEq

/-- The schemes in the order the handle body checks them. -/
def allSchemes : List Scheme :=
  [Scheme.headers, Scheme.jwt, Scheme.signature, Scheme.oauth2, Scheme.basicAuth]

/-- prepareErrorResponse in Validator.handle: sets the status code on the
response and adds the tag stringtool.Cat(tagPre, err) to the context. -/
def prepareErrorResponse (ctx : HTTPContext) (status : Nat) (tagPre : String)
    (err : String) : HTTPContext :=
  (ctx.setStatusCode status).addTag (tagPre ++ err)

/-- The basicAuth block of Validator.handle plus the final return of the empty
result; acc accumulates the schemes invoked so far. -/
def handleBasicAuth {Req : Type} (v : Validator Req) (req : Req) (ctx : HTTPContext)
    (acc : List Scheme) : String × HTTPContext × List Scheme :=
  match v.basicAuth with
  | some b =>
    match b.validate req with
    | some err =>
        (resultInvalid, prepareErrorResponse ctx 401 "http basic validator: " err,
          acc ++ [Scheme.basicAuth])
    | none => ("", ctx, acc ++ [Scheme.basicAuth])
  | none => ("", ctx, acc)

/-- The oauth2 block of Validator.handle. -/
def handleOAuth2 {Req : Type} (v : Validator Req) (req : Req) (ctx : HTTPContext)
    (acc : List Scheme) : String × HTTPContext × List Scheme :=
  match v.oauth2 with
  | some f =>
    match f req with
    | some err =>
        (resultInvalid, prepareErrorResponse ctx 401 "oauth2 validator: " err,
          acc ++ [Scheme.oauth2])
    | none => handleBasicAuth v req ctx (acc ++ [Scheme.oauth2])
  | none => handleBasicAuth v req ctx acc

/-- The signature block of Validator.handle (v.signer.Verify). -/
def handleSignature {Req : Type} (v : Validator Req) (req : Req) (ctx : HTTPContext)
    (acc : List Scheme) : String × HTTPContext × List Scheme :=
  match v.signer with
  | some f =>
    match f req with
    | some err =>
        (resultInvalid, prepareErrorResponse ctx 401 "signature validator: " err,
          acc ++ [Scheme.signature])
    | none => handleOAuth2 v req ctx (acc ++ [Scheme.signature])
  | none => handleOAuth2 v req ctx acc

/-- The jwt block of Validator.handle. -/
def handleJWT {Req : Type} (v : Validator Req) (req : Req) (ctx : HTTPContext)
    (acc : List Scheme) : String × HTTPContext × List Scheme :=
  match v.jwt with
  | some f =>
    match f req with
    | some err =>
        (resultInvalid, prepareErrorResponse ctx 401 "JWT validator: " err,
          acc ++ [Scheme.jwt])
    | none => handleSignature v req ctx (acc ++ [Scheme.jwt])
  | none => handleSignature v req ctx acc

/-- Validator.handle (validator.go): the headers block, then jwt, signature,
oauth2, basicAuth in program order. Returns the result string (empty on pass,
resultInvalid on rejection), the mutated context, and the instrumented list of
schemes whose Validate was invoked, in order. -/
def Validator.handle {Req : Type} (v : Validator Req) (req : Req) (ctx : HTTPContext) :
    String × HTTPContext × List Scheme :=
  match v.headers with
  | some f =>
    match f req with
    | some err =>
        (resultInvalid, prepareErrorResponse ctx 400 "header validator: " err,
          [Scheme.headers])
    | none => handleJWT v req ctx [Scheme.headers]
  | none => handleJWT v req ctx []

/-- Whether scheme s is configured on v (its validator field is non-nil). -/
def Validator.schemeOn {Req : Type} (v : Validator Req) : Scheme → Bool
  | Scheme.headers => v.headers.isSome
  | Scheme.jwt => v.jwt.isSome
  | Scheme.signature => v.signer.isSome
  | Scheme.oauth2 => v.oauth2.isSome
  | Scheme.basicAuth => v.basicAuth.isSome

/-- The configured schemes of v, in the fixed precedence order. -/
def Validator.configured {Req : Type} (v : Validator Req) : List Scheme :=
  allSchemes.filter v.schemeOn

/-- The result of scheme s validating req on v: none when the scheme accepts
or is absent, some err when it rejects with err. -/
def Validator.validateScheme {Req : Type} (v : Validator Req) (s : Scheme) (req : Req) :
    Option String :=
  match s with
  | Scheme.headers => v.headers.bind fun f => f req
  | Scheme.jwt => v.jwt.bind fun f => f req
  | Scheme.signature => v.signer.bind fun f => f req
  | Scheme.oauth2 => v.oauth2.bind fun f => f req
  | Scheme.basicAuth => v.basicAuth.bind fun b => b.validate req

/-- The status code a rejection by scheme s sets: 400 for headers, 401 for the
four credential schemes. -/
def schemeStatus : Scheme → Nat
  | Scheme.headers => 400
  | _ => 401

/-- The tag text the code puts before the underlying error, per scheme. -/
def schemeTagPre : Scheme → String
  | Scheme.headers => "header validator: "
  | Scheme.jwt => "JWT validator: "
  | Scheme.signature => "signature validator: "
  | Scheme.oauth2 => "oauth2 validator: "
  | Scheme.basicAuth => "http basic validator: "

/-- The scheme names as the specification sentence lists them (Headers, JWT,
Signature, OAuth2, BasicAuth); used to state the claimed tag format. -/
def schemeName : Scheme → String
  | Scheme.headers => "Headers"
  | Scheme.jwt => "JWT"
  | Scheme.signature => "Signature"
  | Scheme.oauth2 => "OAuth2"
  | Scheme.basicAuth => "BasicAuth"

/-- The tag format the specification claims: the scheme name followed by
" validator: " and the underlying reason. -/
def claimedTag (s : Scheme) (reason : String) : String :=
  schemeName s ++ " validator: " ++ reason

/-- Specification-side evaluator: walk the given schemes in order, invoke
each, and stop at the first rejection with that scheme status and tag. -/
def evalSchemes {Req : Type} (v : Validator Req) (req : Req) (ctx : HTTPContext) :
    List Scheme → String × HTTPContext × List Scheme
  | [] => ("", ctx, [])
  | s :: rest =>
    match v.validateScheme s req with
    | some err =>
        (resultInvalid, prepareErrorResponse ctx (schemeStatus s) (schemeTagPre s) err,
          [s])
    | none =>
      let r := evalSchemes v req ctx rest
      (r.1, r.2.1, s :: r.2.2)

/-- Reattach the already-invoked schemes in front of the invoked list of a
result. -/
def appendInv (acc : List Scheme) (r : String × HTTPContext × List Scheme) :
    String × HTTPContext × List Scheme :=
  (r.1, r.2.1, acc ++ r.2.2)

theorem resultInvalid_ne_empty : resultInvalid ≠ "" := by decide

theorem handleBasicAuth_eq {Req : Type} (v : Validator Req) (req : Req)
    (ctx : HTTPContext) (acc : List Scheme) :
    handleBasicAuth v req ctx acc =
      appendInv acc (evalSchemes v req ctx (List.filter v.schemeOn [Scheme.basicAuth])) := by
  cases hb : v.basicAuth with
  | none =>
      simp [handleBasicAuth, appendInv, evalSchemes, Validator.schemeOn, hb]
  | some b =>
      cases hv : b.validate req with
      | none =>
          simp [handleBasicAuth, appendInv, evalSchemes, Validator.schemeOn,
            Validator.validateScheme, hb, hv]
      | some err =>
          simp [handleBasicAuth, appendInv, evalSchemes, Validator.schemeOn,
            Validator.validateScheme, schemeStatus, schemeTagPre, hb, hv]

theorem handleOAuth2_eq {Req : Type} (v : Validator Req) (req : Req)
    (ctx : HTTPContext) (acc : List Scheme) :
    handleOAuth2 v req ctx acc =
      appendInv acc (evalSchemes v req ctx
        (List.filter v.schemeOn [Scheme.oauth2, Scheme.basicAuth])) := by
  cases ho : v.oauth2 with
  | none =>
      simp [handleOAuth2, Validator.schemeOn, ho, handleBasicAuth_eq]
  | some f =>
      cases hv : f req with
      | none =>
          simp [handleOAuth2, Validator.schemeOn, Validator.validateScheme, ho, hv,
            handleBasicAuth_eq, evalSchemes, appendInv]
      | some err =>
          simp [handleOAuth2, Validator.schemeOn, Validator.validateScheme, ho, hv,
            evalSchemes, appendInv, schemeStatus, schemeTagPre]

theorem handleSignature_eq {Req : Type} (v : Validator Req) (req : Req)
    (ctx : HTTPContext) (acc : List Scheme) :
    handleSignature v req ctx acc =
      appendInv acc (evalSchemes v req ctx
        (List.filter v.schemeOn [Scheme.signature, Scheme.oauth2, Scheme.basicAuth])) := by
  cases hs : v.signer with
  | none =>
      simp [handleSignature, Validator.schemeOn, hs, handleOAuth2_eq]
  | some f =>
      cases hv : f req with
      | none =>
          simp [handleSignature, Validator.schemeOn, Validator.validateScheme, hs, hv,
            handleOAuth2_eq, evalSchemes, appendInv]
      | some err =>
          simp [handleSignature, Validator.schemeOn, Validator.validateScheme, hs, hv,
            evalSchemes, appendInv, schemeStatus, schemeTagPre]

theorem handleJWT_eq {Req : Type} (v : Validator Req) (req : Req)
    (ctx : HTTPContext) (acc : List Scheme) :
    handleJWT v req ctx acc =
      appendInv acc (evalSchemes v req ctx
        (List.filter v.schemeOn
          [Scheme.jwt, Scheme.signature, Scheme.oauth2, Scheme.basicAuth])) := by
  cases hj : v.jwt with
  | none =>
      simp [handleJWT, Validator.schemeOn, hj, handleSignature_eq]
  | some f =>
      cases hv : f req with
      | none =>
          simp [handleJWT, Validator.schemeOn, Validator.validateScheme, hj, hv,
            handleSignature_eq, evalSchemes, appendInv]
      | some err =>
          simp [handleJWT, Validator.schemeOn, Validator.validateScheme, hj, hv,
            evalSchemes, appendInv, schemeStatus, schemeTagPre]

/-- Validator.handle is the ordered walk over the configured schemes. -/
theorem handle_eq_evalSchemes {Req : Type} (v : Validator Req) (req : Req)
    (ctx : HTTPContext) :
    v.handle req ctx = evalSchemes v req ctx v.configured := by
  cases hh : v.headers with
  | none =>
      simp [Validator.handle, Validator.configured, allSchemes, Validator.schemeOn, hh,
        handleJWT_eq, appendInv]
  | some f =>
      cases hv : f req with
      | none =>
          simp [Validator.handle, Validator.configured, allSchemes, Validator.schemeOn,
            Validator.validateScheme, hh, hv, handleJWT_eq, evalSchemes, appendInv]
      | some err =>
          simp [Validator.handle, Validator.configured, allSchemes, Validator.schemeOn,
            Validator.validateScheme, hh, hv, evalSchemes, appendInv, schemeStatus,
            schemeTagPre]

/-- The walk returns either the empty pass result or resultInvalid. -/
theorem evalSchemes_res_cases {Req : Type} (v : Validator Req) (req : Req)
    (ctx : HTTPContext) (l : List Scheme) :
    (evalSchemes v req ctx l).1 = "" ∨ (evalSchemes v req ctx l).1 = resultInvalid := by
  induction l with
  | nil => exact Or.inl rfl
  | cons s rest ih =>
      cases hv : v.validateScheme s req with
      | some err => exact Or.inr (by simp [evalSchemes, hv])
      | none => simpa [evalSchemes, hv] using ih

/-- The walk passes exactly when every scheme in the list accepts. -/
theorem evalSchemes_pass_iff {Req : Type} (v : Validator Req) (req : Req)
    (ctx : HTTPContext) (l : List Scheme) :
    (evalSchemes v req ctx l).1 = "" ↔ ∀ s ∈ l, v.validateScheme s req = none := by
  induction l with
  | nil => simp [evalSchemes]
  | cons s rest ih =>
      cases hv : v.validateScheme s req with
      | some err =>
          simp only [evalSchemes, hv]
          constructor
          · intro h; exact absurd h resultInvalid_ne_empty
          · intro h; exact absurd (h s (by simp)) (by simp [hv])
      | none =>
          simp only [evalSchemes, hv]
          constructor
          · intro h t ht
            rcases List.mem_cons.mp ht with h1 | h1
            · subst h1; exact hv
            · exact (ih.mp h) t h1
          · intro h
            exact ih.mpr fun t ht => h t (List.mem_cons_of_mem s ht)

/-- On a pass the walk leaves the context untouched and invoked every scheme. -/
theorem evalSchemes_pass_frame {Req : Type} (v : Validator Req) (req : Req)
    (ctx : HTTPContext) (l : List Scheme) :
    (evalSchemes v req ctx l).1 = "" →
      (evalSchemes v req ctx l).2.1 = ctx ∧ (evalSchemes v req ctx l).2.2 = l := by
  induction l with
  | nil => intro _; exact ⟨rfl, rfl⟩
  | cons s rest ih =>
      cases hv : v.validateScheme s req with
      | some err =>
          intro h
          simp only [evalSchemes, hv] at h
          exact absurd h resultInvalid_ne_empty
      | none =>
          intro h
          simp only [evalSchemes, hv] at h ⊢
          exact ⟨(ih h).1, by simp [(ih h).2]⟩

/-- On a rejection the walk stopped at the first rejecting scheme: the list
splits as an accepting initial segment, the rejecting scheme, and the
schemes never reached; the invoked list is the initial segment plus the
rejecting scheme, and the context carries that scheme status and tag. -/
theorem evalSchemes_invalid {Req : Type} (v : Validator Req) (req : Req)
    (ctx : HTTPContext) (l : List Scheme) :
    (evalSchemes v req ctx l).1 = resultInvalid →
      ∃ pre s err rest,
        l = pre ++ s :: rest ∧
        (evalSchemes v req ctx l).2.2 = pre ++ [s] ∧
        (∀ t ∈ pre, v.validateScheme t req = none) ∧
        v.validateScheme s req = some err ∧
        (evalSchemes v req ctx l).2.1 =
          prepareErrorResponse ctx (schemeStatus s) (schemeTagPre s) err := by
  induction l with
  | nil =>
      intro h
      exact absurd h resultInvalid_ne_empty.symm
  | cons s rest ih =>
      cases hv : v.validateScheme s req with
      | some err =>
          intro _
          refine ⟨[], s, err, rest, by simp, ?_, by simp, hv, ?_⟩
          · simp [evalSchemes, hv]
          · simp [evalSchemes, hv]
      | none =>
          intro h
          simp only [evalSchemes, hv] at h
          obtain ⟨pre, t, err, tail, hsplit, hinv, hacc, hrej, hctx⟩ := ih h
          refine ⟨s :: pre, t, err, tail, by simp [hsplit], ?_, ?_, hrej, ?_⟩
          · simp [evalSchemes, hv, hinv]
          · intro u hu
            rcases List.mem_cons.mp hu with h1 | h1
            · subst h1; exact hv
            · exact hacc u h1
          · simp [evalSchemes, hv, hctx]

/-- The invoked list is an initial segment of the walked list. -/
theorem evalSchemes_invoked_init {Req : Type} (v : Validator Req) (req : Req)
    (ctx : HTTPContext) (l : List Scheme) :
    ∃ t, (evalSchemes v req ctx l).2.2 ++ t = l := by
  induction l with
  | nil => exact ⟨[], rfl⟩
  | cons s rest ih =>
      cases hv : v.validateScheme s req with
      | some err => exact ⟨rest, by simp [evalSchemes, hv]⟩
      | none =>
          obtain ⟨t, ht⟩ := ih
          exact ⟨t, by simp [evalSchemes, hv, ht]⟩

theorem getLast_of_append_single {α : Type} (l : List α) (a : α) :
    (l ++ [a]).getLast? = some a := by
  rw [List.getLast?_append_cons]; rfl

/-- A validator with only a rejecting headers scheme, for concrete checks. -/
def headersRejectValidator : Validator Unit :=
  { headers := some fun _ => some "boom" }

/-- A validator with only a rejecting jwt scheme, for concrete checks. -/
def jwtRejectValidator : Validator Unit :=
  { jwt := some fun _ => some "bad token" }

/-- A validator with only a rejecting basicAuth scheme, for concrete checks. -/
def basicAuthRejectValidator : Validator Unit :=
  { basicAuth := some { validate := fun _ => some "no credentials", running := true } }

/-- A validator owning only an accepting basicAuth scheme, as a previous
generation whose watcher is running. -/
def basicAuthOnlyValidator : Validator Unit :=
  { basicAuth := some { validate := fun _ => none, running := true } }

/-- A spec with all five scheme sections nil but a named BaseSpec, as every
deployed filter spec has. -/
def namedZeroSchemeSpec : Spec Unit :=
  { baseSpec := { name := "demo-validator" } }

/-- C1: for every request, handle invokes the configured scheme validators in
the fixed precedence order Headers, JWT, Signature, OAuth2, BasicAuth,
skipping absent schemes, and short-circuits: handle is the ordered walk over
v.configured; the invoked list is an initial segment of v.configured; on a
pass every configured scheme is invoked; and on a rejection the invoked list
is the accepting initial segment plus the one rejecting scheme, so no later
scheme Validate is invoked. -/
theorem handle_order_and_short_circuit {Req : Type} (v : Validator Req) (req : Req)
    (ctx : HTTPContext) :
    v.handle req ctx = evalSchemes v req ctx v.configured ∧
    (∃ t, (v.handle req ctx).2.2 ++ t = v.configured) ∧
    ((v.handle req ctx).1 = "" → (v.handle req ctx).2.2 = v.configured) ∧
    ((v.handle req ctx).1 = resultInvalid →
      ∃ pre s rest, v.configured = pre ++ s :: rest ∧
        (v.handle req ctx).2.2 = pre ++ [s] ∧
        (∀ t ∈ pre, v.validateScheme t req = none) ∧
        v.validateScheme s req ≠ none) := by
  have he := handle_eq_evalSchemes v req ctx
  refine ⟨he, ?_, ?_, ?_⟩
  · rw [he]; exact evalSchemes_invoked_init v req ctx v.configured
  · intro h; rw [he] at h ⊢
    exact (evalSchemes_pass_frame v req ctx _ h).2
  · intro h; rw [he] at h ⊢
    obtain ⟨pre, s, err, rest, hsplit, hinv, hacc, hrej, -⟩ :=
      evalSchemes_invalid v req ctx _ h
    exact ⟨pre, s, rest, hsplit, hinv, hacc, by simp [hrej]⟩

/-- C3: when a scheme rejects, the status code set on the response is
determined by the scheme: 400 for a Headers rejection, 401 for a rejection by
JWT, Signature, OAuth2 or BasicAuth. -/
theorem handle_rejection_status {Req : Type} (v : Validator Req) (req : Req)
    (ctx : HTTPContext) (h : (v.handle req ctx).1 = resultInvalid) :
    ∃ s, ((v.handle req ctx).2.2).getLast? = some s ∧
      ((v.handle req ctx).2.1).statusCode =
        some (if s = Scheme.headers then 400 else 401) := by
  rw [handle_eq_evalSchemes] at h ⊢
  obtain ⟨pre, s, err, rest, -, hinv, -, -, hctx⟩ := evalSchemes_invalid v req ctx _ h
  refine ⟨s, by rw [hinv]; exact getLast_of_append_single pre s, ?_⟩
  rw [hctx]
  cases s <;> rfl

theorem handle_rejection_status_witness :
    (jwtRejectValidator.handle () {}).1 = resultInvalid ∧
    ∃ s, ((jwtRejectValidator.handle () {}).2.2).getLast? = some s ∧
      ((jwtRejectValidator.handle () {}).2.1).statusCode =
        some (if s = Scheme.headers then 400 else 401) :=
  ⟨rfl, handle_rejection_status jwtRejectValidator () {} rfl⟩

/-- C4: handle passes exactly when every configured scheme accepts; a non-nil
error from any configured scheme makes it return resultInvalid (fail-closed),
and the result is always pass or invalid, never a gate failure. -/
theorem handle_pass_iff_all_accept {Req : Type} (v : Validator Req) (req : Req)
    (ctx : HTTPContext) :
    ((v.handle req ctx).1 = "" ↔ ∀ s ∈ v.configured, v.validateScheme s req = none) ∧
    ((v.handle req ctx).1 = resultInvalid ↔
      ∃ s ∈ v.configured, v.validateScheme s req ≠ none) ∧
    ((v.handle req ctx).1 = "" ∨ (v.handle req ctx).1 = resultInvalid) := by
  have he := handle_eq_evalSchemes v req ctx
  rw [he]
  have hp := evalSchemes_pass_iff v req ctx v.configured
  have hc := evalSchemes_res_cases v req ctx v.configured
  refine ⟨hp, ?_, hc⟩
  constructor
  · intro h
    by_contra hno
    push_neg at hno
    have hpass : (evalSchemes v req ctx v.configured).1 = "" := hp.mpr hno
    rw [h] at hpass
    exact resultInvalid_ne_empty hpass
  · rintro ⟨s, hs, hne⟩
    rcases hc with hpass | hinv
    · exact absurd (hp.mp hpass s hs) hne
    · exact hinv

/-- C6 is refuted at a headers rejection: the tag the code adds is
"header validator: boom", while the claimed scheme-name format gives
"Headers validator: boom". -/
theorem claimed_tag_format_refuted :
    ((headersRejectValidator.handle () {}).2.1).tags = ["header validator: boom"] ∧
    claimedTag Scheme.headers "boom" = "Headers validator: boom" ∧
    ((headersRejectValidator.handle () {}).2.1).tags ≠
      [claimedTag Scheme.headers "boom"] := by
  refine ⟨rfl, rfl, ?_⟩
  decide

/-- C6 (amended): for every request rejected by a scheme, the diagnostic tag
appended to the context is the code per-scheme label followed by the
underlying reason: the labels are "header validator: ", "JWT validator: ",
"signature validator: ", "oauth2 validator: " and "http basic validator: " —
lowercase header and http basic, not the spec scheme names Headers and
BasicAuth. -/
theorem handle_rejection_tag {Req : Type} (v : Validator Req) (req : Req)
    (ctx : HTTPContext) (h : (v.handle req ctx).1 = resultInvalid) :
    ∃ s err, ((v.handle req ctx).2.2).getLast? = some s ∧
      v.validateScheme s req = some err ∧
      ((v.handle req ctx).2.1).tags = ctx.tags ++ [schemeTagPre s ++ err] := by
  rw [handle_eq_evalSchemes] at h ⊢
  obtain ⟨pre, s, err, rest, -, hinv, -, hrej, hctx⟩ := evalSchemes_invalid v req ctx _ h
  exact ⟨s, err, by rw [hinv]; exact getLast_of_append_single pre s, hrej,
    by rw [hctx]; rfl⟩

theorem handle_rejection_tag_witness :
    (basicAuthRejectValidator.handle () {}).1 = resultInvalid ∧
    ∃ s err, ((basicAuthRejectValidator.handle () {}).2.2).getLast? = some s ∧
      basicAuthRejectValidator.validateScheme s () = some err ∧
      ((basicAuthRejectValidator.handle () {}).2.1).tags =
        ({} : HTTPContext).tags ++ [schemeTagPre s ++ err] :=
  ⟨rfl, handle_rejection_tag basicAuthRejectValidator () {} rfl⟩

/-- C2: Spec.Validate does not reject every zero-scheme spec: a spec with all
five scheme sections nil but a non-zero embedded BaseSpec (here a filter
name, as every deployed spec has) is accepted, because the code only rejects
the fully zero struct; the fully zero spec is still rejected with the
documented error. -/
theorem spec_validate_zero_schemes_accepted :
    namedZeroSchemeSpec.headers = none ∧ namedZeroSchemeSpec.jwt = none ∧
    namedZeroSchemeSpec.signature = none ∧ namedZeroSchemeSpec.oauth2 = none ∧
    namedZeroSchemeSpec.basicAuth = none ∧
    Spec.Validate namedZeroSchemeSpec = none ∧
    Spec.Validate ({} : Spec Unit) = some "none of the validations are defined" := by
  refine ⟨rfl, rfl, rfl, rfl, rfl, ?_, ?_⟩ <;> decide

/-- The ordering C5 claims: any release of the superseded generation
resources happens only after the construction of the new generation. -/
def releasedOnlyAfterConstruct (tr : List LifecycleEvent) : Prop :=
  ∀ i j : Nat, tr.get? i = some LifecycleEvent.releaseBasicAuth →
    tr.get? j = some LifecycleEvent.constructGeneration → j < i

/-- C5 is refuted: Inherit closes the previous generation before building the
new one — with a previous generation owning a basicAuth watcher the event
trace is [releaseBasicAuth, constructGeneration], so the release is not after
the construction. -/
theorem inherit_release_order_refuted :
    ((Validator.empty Unit).Inherit {} basicAuthOnlyValidator).2.2 =
      [LifecycleEvent.releaseBasicAuth, LifecycleEvent.constructGeneration] ∧
    ¬ releasedOnlyAfterConstruct
        ((Validator.empty Unit).Inherit {} basicAuthOnlyValidator).2.2 := by
  refine ⟨rfl, ?_⟩
  intro hcl
  have h01 := hcl 0 1 rfl rfl
  omega

/-- C5 (amended): Inherit first releases the superseded generation
releasable resources — it runs Close on the previous generation — and only
then constructs the new generation with Init: the event trace is the previous
generation close events followed by the construction event; Init cannot
fail, so there is no failed-reconfiguration branch. -/
theorem inherit_releases_then_constructs {Req : Type} (v prev : Validator Req)
    (spec : Spec Req) :
    (v.Inherit spec prev).2.2 =
      prev.closeEvents ++ [LifecycleEvent.constructGeneration] ∧
    (v.Inherit spec prev).1 = v.Init spec ∧
    (v.Inherit spec prev).2.1 = prev.Close ∧
    (prev.basicAuth.isSome = true →
      (v.Inherit spec prev).2.2 =
        [LifecycleEvent.releaseBasicAuth, LifecycleEvent.constructGeneration]) ∧
    (prev.basicAuth.isSome = false →
      (v.Inherit spec prev).2.2 = [LifecycleEvent.constructGeneration]) := by
  refine ⟨rfl, rfl, rfl, ?_, ?_⟩ <;>
    · intro h
      cases hb : prev.basicAuth <;>
        simp_all [Validator.Inherit, Validator.closeEvents, initEvents, hb]

/-- C7: Validator.Close is idempotent: a second Close on an already closed
validator is a no-op, leaving the state of the first Close. -/
theorem close_idempotent {Req : Type} (v : Validator Req) :
    v.Close.Close = v.Close := by
  cases hb : v.basicAuth <;>
    simp [Validator.Close, BasicAuthValidator.Close, hb]

/-- C8: Init does not call Spec.Validate; a gate initialized from a spec
whose five scheme sections are all nil passes every request with the context
untouched — the zero-scheme gate is a pass-all gate rather than failing. -/
theorem zero_scheme_gate_passes {Req : Type} (s : Spec Req) (req : Req)
    (ctx : HTTPContext) (hh : s.headers = none) (hj : s.jwt = none)
    (hsg : s.signature = none) (ho : s.oauth2 = none) (hb : s.basicAuth = none) :
    ((Validator.empty Req).Init s).handle req ctx = ("", ctx, []) := by
  simp [Validator.Init, Validator.reload, Validator.empty, hh, hj, hsg, ho, hb,
    Validator.handle, handleJWT, handleSignature, handleOAuth2, handleBasicAuth]

theorem zero_scheme_gate_passes_witness :
    ((Validator.empty Unit).Init namedZeroSchemeSpec).handle () {} = ("", {}, []) :=
  zero_scheme_gate_passes namedZeroSchemeSpec () {} rfl rfl rfl rfl rfl

/-- C9: on a pass handle does not mutate the context; on a rejection it
performs exactly the two mutations: it sets a status code and appends one
diagnostic tag to the context tags. -/
theorem handle_context_frame {Req : Type} (v : Validator Req) (req : Req)
    (ctx : HTTPContext) :
    ((v.handle req ctx).1 = "" → (v.handle req ctx).2.1 = ctx) ∧
    ((v.handle req ctx).1 = resultInvalid →
      ∃ st tag, (v.handle req ctx).2.1 =
        { statusCode := some st, tags := ctx.tags ++ [tag] }) := by
  constructor
  · intro h
    rw [handle_eq_evalSchemes] at h ⊢
    exact (evalSchemes_pass_frame v req ctx _ h).1
  · intro h
    rw [handle_eq_evalSchemes] at h ⊢
    obtain ⟨pre, s, err, rest, -, -, -, -, hctx⟩ := evalSchemes_invalid v req ctx _ h
    exact ⟨schemeStatus s, schemeTagPre s ++ err, by rw [hctx]; rfl⟩

/-- C10: Close releases only the basicAuth validator: the spec, headers, jwt,
signer and oauth2 fields are unchanged, the basicAuth field is only closed,
and with no basicAuth configured Close is a no-op. -/
theorem close_frame {Req : Type} (v : Validator Req) :
    v.Close.spec = v.spec ∧ v.Close.headers = v.headers ∧ v.Close.jwt = v.jwt ∧
    v.Close.signer = v.signer ∧ v.Close.oauth2 = v.oauth2 ∧
    v.Close.basicAuth = v.basicAuth.map BasicAuthValidator.Close ∧
    (v.basicAuth = none → v.Close = v) := by
  cases hb : v.basicAuth <;>
    simp [Validator.Close, hb]

end EGValidator
